import Mathlib

/-!
Verification of the `gdnative-derive` method-export pipeline
(`src/gdnative-derive/src/methods.rs`).

The Rust source is shallowly embedded: `syn` syntax-tree types become Lean
inductive types whose fields the source never inspects are kept as opaque
`String` carriers, and the two side channels of the source (the `eprintln!`
diagnostics and the `panic!` on parse failure) are modelled explicitly as a
returned diagnostic list and an `Except` error branch.
-/

namespace GdnativeDerive

/-- Style of a Rust attribute: `#[...]` (outer) or `#![...]` (inner),
mirroring `syn::AttrStyle`. -/
inductive AttrStyle where
  | outer
  | inner
deriving DecidableEq

/-- A Rust attribute, mirroring `syn::Attribute`: its style and the idents of
its path segments; the argument tokens are opaque. -/
structure Attribute where
  style : AttrStyle
  path : List String
  tokens : String
deriving DecidableEq

/-- A binding pattern, mirroring the `syn::Pat` cases the source inspects:
`Pat::Wild`, `Pat::Ident` (with `by_ref`, `mutability`, the ident and an
opaque optional subpattern), and all other pattern forms kept opaque. -/
inductive Pat where
  | wild
  | ident (by_ref : Bool) (mutability : Bool) (name : String) (subpat : Option String)
  | other (tokens : String)
deriving DecidableEq

/-- A `self` receiver parameter, mirroring `syn::Receiver`:
`self`, `&self`, `&'a self`, `&mut self`, `mut self`, ... -/
structure Receiver where
  reference : Bool
  lifetime : Option String
  mutability : Bool
deriving DecidableEq

/-- A function parameter, mirroring `syn::FnArg`: a receiver or a typed
pattern; the type annotation is opaque. -/
inductive FnArg where
  | receiver (r : Receiver)
  | typed (pat : Pat) (ty : String)
deriving DecidableEq

/-- One generic parameter, mirroring `syn::GenericParam`. -/
inductive GenericParam where
  | type (name : String)
  | lifetime (name : String)
  | const (name : String)
deriving DecidableEq

/-- Generic parameter list, mirroring `syn::Generics.params`. -/
structure Generics where
  params : List GenericParam
deriving DecidableEq

/-- Mirrors `syn::Generics::type_params`, the iterator filtering the type
parameters out of `params`. -/
def Generics.typeParams (g : Generics) : List GenericParam :=
  g.params.filter fun p =>
    match p with
    | GenericParam.type _ => true
    | _ => false

/-- Mirrors `syn::Generics::lifetimes`. -/
def Generics.lifetimes (g : Generics) : List GenericParam :=
  g.params.filter fun p =>
    match p with
    | GenericParam.lifetime _ => true
    | _ => false

/-- Mirrors `syn::Generics::const_params`. -/
def Generics.constParams (g : Generics) : List GenericParam :=
  g.params.filter fun p =>
    match p with
    | GenericParam.const _ => true
    | _ => false

/-- A function signature, mirroring the fields of `syn::Signature` the source
reads or writes: `ident`, `generics`, `unsafety`, `inputs`; the return type
is carried opaquely. -/
structure Signature where
  ident : String
  generics : Generics
  unsafety : Bool
  inputs : List FnArg
  output : String
deriving DecidableEq

/-- An impl-block method, mirroring `syn::ImplItemMethod`: its attribute
list and signature, with visibility and body opaque. -/
structure ImplItemMethod where
  attrs : List Attribute
  vis : String
  sig : Signature
  block : String
deriving DecidableEq

/-- A member of an impl block, mirroring `syn::ImplItem`: the source only
distinguishes `ImplItem::Method` from everything else. -/
inductive ImplItem where
  | method (m : ImplItemMethod)
  | other (tokens : String)
deriving DecidableEq

/-- An impl block, mirroring the fields of `syn::ItemImpl` the source uses:
`self_ty` and `items`; the remaining header data is opaque and is carried
along by the `clone` at the top of `impl_gdnative_expose`. -/
structure ItemImpl where
  header : String
  self_ty : String
  items : List ImplItem
deriving DecidableEq

/-- Mirrors `ClassMethodExport` of `methods.rs` (lines 7-10). -/
structure ClassMethodExport where
  class_ty : String
  methods : List Signature
deriving DecidableEq

/-- The loop over `attr.path.segments` inside the `position` closure
(lines 102-106): it returns `correct_style` at the first segment whose ident
is `"export"` and `false` when no segment matches. -/
def exportSegmentScan : List String → Bool → Bool
  | [], _ => false
  | seg :: rest, correct_style =>
    if seg == "export" then correct_style else exportSegmentScan rest correct_style

/-- The predicate passed to `method.attrs.iter().position` (lines 96-109):
the attribute style must be `Outer` and some path segment must be
`"export"`. -/
def isExportAttr (attr : Attribute) : Bool :=
  let correct_style :=
    match attr.style with
    | AttrStyle.outer => true
    | _ => false
  exportSegmentScan attr.path correct_style

/-- Lines 96-118 for one `ImplItem::Method`: find the position of the first
matching attribute, remove exactly that attribute, and hand back the
signature to push onto `methods_to_export`. -/
def processMethod (method : ImplItemMethod) : ImplItemMethod × Option Signature :=
  match method.attrs.findIdx? isExportAttr with
  | some idx =>
    let method := { method with attrs := method.attrs.eraseIdx idx }
    (method, some method.sig)
  | none => (method, none)

/-- The `for func in ast.items` loop (lines 92-124): rebuild the item list in
order while collecting the signatures of marked methods. -/
def collectItems : List ImplItem → List ImplItem × List Signature
  | [] => ([], [])
  | func :: rest =>
    let r := collectItems rest
    match func with
    | ImplItem.method method =>
      let pm := processMethod method
      (ImplItem.method pm.fst :: r.fst, pm.snd.toList ++ r.snd)
    | item => (item :: r.fst, r.snd)

/-- Diagnostic text at line 133. -/
def typeParamsDiag : String := "type parameters not allowed in exported functions"

/-- Diagnostic text at line 137. -/
def lifetimesDiag : String := "lifetime parameters not allowed in exported functions"

/-- Diagnostic text at line 141. -/
def constParamsDiag : String := "const parameters not allowed in exported functions"

/-- The parameter rewrite closure (lines 151-171): a wildcard becomes the
ident `___unused_arg_{i}` (fresh `PatIdent`, no `by_ref`, no mutability, no
subpattern); an ident pattern keeps everything but its mutability; other
patterns and receivers pass through. -/
def normalizeArg (i : Nat) (arg : FnArg) : FnArg :=
  match arg with
  | FnArg.typed pat ty =>
    match pat with
    | Pat.wild =>
      FnArg.typed (Pat.ident false false ("___unused_arg_" ++ Nat.repr i) none) ty
    | Pat.ident by_ref _ name subpat =>
      FnArg.typed (Pat.ident by_ref false name subpat) ty
    | pat => FnArg.typed pat ty
  | arg => arg

/-- Lines 147-175 for one accepted signature: rewrite every parameter with
its zero-based index and clear the unsafety qualifier. -/
def normalizeSignature (method : Signature) : Signature :=
  { method with
    inputs := method.inputs.enum.map fun p => normalizeArg p.fst p.snd
    unsafety := false }

/-- The `for mut method in methods_to_export` loop (lines 129-178): reject a
signature with type, lifetime or const generic parameters (emitting the
matching diagnostic and continuing), normalize and keep the rest.
Diagnostics are returned instead of printed to stderr. -/
def validateAndNormalize : List Signature → List Signature × List String
  | [] => ([], [])
  | method :: rest =>
    let r := validateAndNormalize rest
    if (method.generics.typeParams).length > 0 then
      (r.fst, typeParamsDiag :: r.snd)
    else if (method.generics.lifetimes).length > 0 then
      (r.fst, lifetimesDiag :: r.snd)
    else if (method.generics.constParams).length > 0 then
      (r.fst, constParamsDiag :: r.snd)
    else
      (normalizeSignature method :: r.fst, r.snd)

/-- `impl_gdnative_expose` (lines 73-182): clone the impl block, rebuild its
items with marker attributes removed, and validate/normalize the collected
signatures into the export descriptor. The emitted diagnostics are the
second component. -/
def impl_gdnative_expose (ast : ItemImpl) :
    (ItemImpl × ClassMethodExport) × List String :=
  let c := collectItems ast.items
  let result := { ast with items := c.fst }
  let v := validateAndNormalize c.snd
  ((result, { class_ty := ast.self_ty, methods := v.fst }), v.snd)

/-- `parse_method_export` (lines 60-70): the result of the external
`syn` parse is the input; on error the source panics, modelled as the
`Except.error` branch, otherwise `impl_gdnative_expose` runs. -/
def parse_method_export (input : Except String ItemImpl) :
    Except String ((ItemImpl × ClassMethodExport) × List String) :=
  match input with
  | Except.ok impl_block => Except.ok (impl_gdnative_expose impl_block)
  | Except.error err => Except.error err

/-- One `builder.add_method(#name, method)` call of the emitted registration
routine (lines 24-33): the string key and the signature it wraps. -/
structure RegistrationCall where
  name : String
  method : Signature
deriving DecidableEq

/-- The output token stream of `derive_methods` (lines 15-52): the rebuilt
impl block followed by exactly one `NativeClassMethods` registration
artifact for the class, holding the ordered registration calls. -/
structure DeriveOutput where
  impl_block : ItemImpl
  class_name : String
  registrations : List RegistrationCall
deriving DecidableEq

/-- `derive_methods` (lines 12-55): run the pipeline and emit the rebuilt
impl block plus the single registration artifact; each export-descriptor
entry becomes one registration call keyed by `m.ident.to_string()`. -/
def derive_methods (input : ItemImpl) : DeriveOutput × List String :=
  let p := impl_gdnative_expose input
  ({ impl_block := p.fst.fst
     class_name := p.fst.snd.class_ty
     registrations := p.fst.snd.methods.map fun m => { name := m.ident, method := m } },
   p.snd)

/-- The per-item action of the attribute-filter stage, read off lines
93-121: a method is rewritten by `processMethod`, every other item passes
through. Used to state order preservation of the rebuilt item list. -/
def filterItem : ImplItem → ImplItem
  | ImplItem.method method => ImplItem.method (processMethod method).fst
  | item => item

/-- The rejection decision of the validator (lines 132-143) as a standalone
function: the diagnostic emitted for a signature, `none` if it is
accepted. -/
def rejectionDiag (m : Signature) : Option String :=
  if (m.generics.typeParams).length > 0 then some typeParamsDiag
  else if (m.generics.lifetimes).length > 0 then some lifetimesDiag
  else if (m.generics.constParams).length > 0 then some constParamsDiag
  else none

/-! Concrete syntax trees used by witnesses and counterexamples. -/

/-- A plain `#[export]` marker attribute. -/
def exportAttr : Attribute := ⟨AttrStyle.outer, ["export"], ""⟩

/-- An unrelated outer attribute. -/
def inlineAttr : Attribute := ⟨AttrStyle.outer, ["inline"], ""⟩

/-- `fn a(&self, _: i32)`. -/
def sigA : Signature :=
  ⟨"a", ⟨[]⟩, false,
   [FnArg.receiver ⟨true, none, false⟩, FnArg.typed Pat.wild "i32"], ""⟩

/-- `fn b<T>(&self)`. -/
def sigB : Signature :=
  ⟨"b", ⟨[GenericParam.type "T"]⟩, false, [FnArg.receiver ⟨true, none, false⟩], ""⟩

/-- `fn c(&self, mut y: i32)`. -/
def sigC : Signature :=
  ⟨"c", ⟨[]⟩, false,
   [FnArg.receiver ⟨true, none, false⟩,
    FnArg.typed (Pat.ident false true "y" none) "i32"], ""⟩

/-- `#[export] fn a(&self, _: i32) {}`. -/
def methodA : ImplItemMethod := ⟨[exportAttr], "", sigA, "{}"⟩

/-- `#[export] fn b<T>(&self) {}`. -/
def methodB : ImplItemMethod := ⟨[exportAttr], "", sigB, "{}"⟩

/-- `#[export] fn c(&self, mut y: i32) {}`. -/
def methodC : ImplItemMethod := ⟨[exportAttr], "", sigC, "{}"⟩

/-- `#[inline] fn p(&self) {}`, not marked for export. -/
def methodPlain : ImplItemMethod :=
  ⟨[inlineAttr], "", ⟨"p", ⟨[]⟩, false, [FnArg.receiver ⟨true, none, false⟩], ""⟩, "{}"⟩

/-- An impl block with two exported methods (one generic), an unmarked
method and a non-method member. -/
def astEx : ItemImpl :=
  ⟨"", "Foo",
   [ImplItem.method methodA, ImplItem.method methodB,
    ImplItem.method methodPlain, ImplItem.other "const X: i32 = 0;"]⟩

/-! Helper lemmas on the attribute scan. -/

/-- The segment loop never matches when the style check already failed. -/
theorem exportSegmentScan_false (l : List String) :
    exportSegmentScan l false = false := by
  induction l with
  | nil => rfl
  | cons seg rest ih =>
    by_cases h : seg = "export" <;> simp [exportSegmentScan, h, ih]

/-- The segment loop with a passing style check finds `"export"` anywhere in
the path. -/
theorem exportSegmentScan_true (l : List String) :
    exportSegmentScan l true = true ↔ "export" ∈ l := by
  induction l with
  | nil => simp [exportSegmentScan]
  | cons seg rest ih =>
    by_cases h : seg = "export"
    · simp [exportSegmentScan, h]
    · simp only [exportSegmentScan, beq_iff_eq, h, if_false, ih, List.mem_cons]
      constructor
      · exact Or.inr
      · rintro (h2 | h2)
        · exact absurd h2.symm h
        · exact h2

/-- Detection characterization: an attribute matches exactly when its style
is outer and some path segment is `"export"`. -/
theorem isExportAttr_iff (attr : Attribute) :
    isExportAttr attr = true ↔
      (attr.style = AttrStyle.outer ∧ "export" ∈ attr.path) := by
  rcases attr with ⟨style, path, tokens⟩
  cases style
  · simpa [isExportAttr] using exportSegmentScan_true path
  · simp [isExportAttr, exportSegmentScan_false]

/-- An outer attribute whose path is `export::gd` — its final segment is not
`"export"`, but an earlier segment is. -/
def c1Attr : Attribute := ⟨AttrStyle.outer, ["export", "gd"], ""⟩

/-- A method carrying only `c1Attr`. -/
def c1Method : ImplItemMethod :=
  ⟨[c1Attr], "", ⟨"f", ⟨[]⟩, false, [], ""⟩, "{}"⟩

/-- C1, counterexample: the claim requires detection exactly when the final
path segment is `"export"`, but the source scans every segment; the outer
attribute with path `export::gd` has final segment `"gd"` yet is detected,
removed, and its method's signature is pushed onto the worklist. -/
theorem C1_counterexample :
    c1Attr.path.getLast? ≠ some "export" ∧
    isExportAttr c1Attr = true ∧
    processMethod c1Method = ({ c1Method with attrs := [] }, some c1Method.sig) :=
  ⟨by decide, rfl, rfl⟩

/-- C1, amended: a marker attribute is detected exactly when its style is
outer and SOME segment of its path equals `"export"`; when a method has a
matching attribute, exactly the first one (at the position `findIdx?`
returns) is removed, all other attributes remain, and a copy of the
method's signature is handed to the export worklist, which `collectItems`
appends in order; a method with no matching attribute is unchanged. -/
theorem C1_marker_detection (attr : Attribute) (m : ImplItemMethod)
    (rest : List ImplItem) (idx : Nat) :
    (isExportAttr attr = true ↔
      (attr.style = AttrStyle.outer ∧ "export" ∈ attr.path)) ∧
    (m.attrs.findIdx? isExportAttr = some idx →
      processMethod m = ({ m with attrs := m.attrs.eraseIdx idx }, some m.sig)) ∧
    (m.attrs.findIdx? isExportAttr = none → processMethod m = (m, none)) ∧
    (collectItems (ImplItem.method m :: rest) =
      (ImplItem.method (processMethod m).fst :: (collectItems rest).fst,
       (processMethod m).snd.toList ++ (collectItems rest).snd)) := by
  refine ⟨isExportAttr_iff attr, ?_, ?_, rfl⟩
  · intro h
    simp [processMethod, h]
  · intro h
    simp [processMethod, h]

/-- C1, witness: on the method `#[export] fn a(&self, _: i32)` the first
(only) attribute is detected at index 0 and removed, and the signature is
pushed; on an unmarked method nothing happens. -/
theorem C1_marker_detection_witness :
    processMethod methodA = ({ methodA with attrs := [exportAttr].eraseIdx 0 },
      some methodA.sig) ∧
    processMethod methodPlain = (methodPlain, none) :=
  ⟨(C1_marker_detection exportAttr methodA [] 0).2.1 (by decide),
   (C1_marker_detection exportAttr methodPlain [] 0).2.2.1 (by decide)⟩

/-- The rebuilt item list is the input list mapped through `filterItem`. -/
theorem collectItems_fst (items : List ImplItem) :
    (collectItems items).fst = items.map filterItem := by
  induction items with
  | nil => rfl
  | cons func rest ih =>
    cases func with
    | method m => simp [collectItems, filterItem, ih]
    | other t => simp [collectItems, filterItem, ih]

/-- Unfolding of `impl_gdnative_expose` into its two stages. -/
theorem impl_gdnative_expose_eq (ast : ItemImpl) :
    impl_gdnative_expose ast =
      (({ ast with items := (collectItems ast.items).fst },
        { class_ty := ast.self_ty
          methods := (validateAndNormalize (collectItems ast.items).snd).fst }),
       (validateAndNormalize (collectItems ast.items).snd).snd) := rfl

/-- A method whose attribute search fails is returned untouched. -/
theorem processMethod_none (m : ImplItemMethod)
    (h : m.attrs.findIdx? isExportAttr = none) : processMethod m = (m, none) := by
  simp [processMethod, h]

/-- The attribute filter changes nothing about a method but its attribute
list. -/
theorem processMethod_fst_frame (m : ImplItemMethod) :
    (processMethod m).fst.sig = m.sig ∧ (processMethod m).fst.vis = m.vis ∧
      (processMethod m).fst.block = m.block := by
  rcases h : m.attrs.findIdx? isExportAttr with _ | idx <;>
    simp [processMethod, h]

/-- C2: the attribute-filter stage preserves the member list exactly: the
output impl block keeps the header and owner type, and its items are the
input items in order, each rewritten only by `filterItem`; a non-method
member and a method with no detected marker are untouched, and a method
with a detected marker keeps its signature, visibility and body, losing
only the attribute at the detected position. -/
theorem C2_member_list_preserved (ast : ItemImpl) (m : ImplItemMethod)
    (t : String) (idx : Nat) :
    ((impl_gdnative_expose ast).fst.fst.header = ast.header ∧
     (impl_gdnative_expose ast).fst.fst.self_ty = ast.self_ty ∧
     (impl_gdnative_expose ast).fst.fst.items = ast.items.map filterItem) ∧
    (filterItem (ImplItem.other t) = ImplItem.other t) ∧
    ((processMethod m).fst.sig = m.sig ∧ (processMethod m).fst.vis = m.vis ∧
      (processMethod m).fst.block = m.block) ∧
    (m.attrs.findIdx? isExportAttr = none → filterItem (ImplItem.method m) = ImplItem.method m) ∧
    (m.attrs.findIdx? isExportAttr = some idx →
      (processMethod m).fst.attrs = m.attrs.eraseIdx idx) := by
  refine ⟨⟨rfl, rfl, ?_⟩, rfl, processMethod_fst_frame m, ?_, ?_⟩
  · rw [impl_gdnative_expose_eq]
    exact collectItems_fst ast.items
  · intro h
    simp [filterItem, processMethod_none m h]
  · intro h
    simp [processMethod, h]

/-- C2, witness: on the concrete impl block the items come back in order
through `filterItem`; its unmarked method is untouched and the marked
method `methodA` loses exactly its attribute at index 0. -/
theorem C2_member_list_preserved_witness :
    (impl_gdnative_expose astEx).fst.fst.items = astEx.items.map filterItem ∧
    filterItem (ImplItem.method methodPlain) = ImplItem.method methodPlain ∧
    (processMethod methodA).fst.attrs = [exportAttr].eraseIdx 0 :=
  ⟨(C2_member_list_preserved astEx methodA "" 0).1.2.2,
   (C2_member_list_preserved astEx methodPlain "" 0).2.2.2.1 (by decide),
   (C2_member_list_preserved astEx methodA "" 0).2.2.2.2 (by decide)⟩

/-- Unfolding equation for the validator on a cons cell. -/
theorem validateAndNormalize_cons (m : Signature) (rest : List Signature) :
    validateAndNormalize (m :: rest) =
      (if (m.generics.typeParams).length > 0 then
        ((validateAndNormalize rest).fst,
         typeParamsDiag :: (validateAndNormalize rest).snd)
      else if (m.generics.lifetimes).length > 0 then
        ((validateAndNormalize rest).fst,
         lifetimesDiag :: (validateAndNormalize rest).snd)
      else if (m.generics.constParams).length > 0 then
        ((validateAndNormalize rest).fst,
         constParamsDiag :: (validateAndNormalize rest).snd)
      else
        (normalizeSignature m :: (validateAndNormalize rest).fst,
         (validateAndNormalize rest).snd)) := rfl

/-- The validator processes worklist entries independently: its outputs
over an appended worklist are the appended outputs. -/
theorem validateAndNormalize_append (l1 l2 : List Signature) :
    validateAndNormalize (l1 ++ l2) =
      ((validateAndNormalize l1).fst ++ (validateAndNormalize l2).fst,
       (validateAndNormalize l1).snd ++ (validateAndNormalize l2).snd) := by
  induction l1 with
  | nil => simp [validateAndNormalize]
  | cons m rest ih =>
    rw [List.cons_append, validateAndNormalize_cons, validateAndNormalize_cons, ih]
    by_cases h1 : (m.generics.typeParams).length > 0
    · simp [h1]
    · by_cases h2 : (m.generics.lifetimes).length > 0
      · simp [h1, h2]
      · by_cases h3 : (m.generics.constParams).length > 0
        · simp [h1, h2, h3]
        · simp [h1, h2, h3]

/-- A signature is accepted exactly when it has no generic parameters. -/
theorem rejectionDiag_eq_none_iff (m : Signature) :
    rejectionDiag m = none ↔
      (m.generics.typeParams = [] ∧ m.generics.lifetimes = [] ∧
       m.generics.constParams = []) := by
  unfold rejectionDiag
  by_cases h1 : (m.generics.typeParams).length > 0
  · simp [h1, List.ne_nil_of_length_pos h1]
  · have e1 : m.generics.typeParams = [] := List.length_eq_zero.mp (by omega)
    by_cases h2 : (m.generics.lifetimes).length > 0
    · simp [h1, h2, e1, List.ne_nil_of_length_pos h2]
    · have e2 : m.generics.lifetimes = [] := List.length_eq_zero.mp (by omega)
      by_cases h3 : (m.generics.constParams).length > 0
      · simp [h1, h2, h3, e1, e2, List.ne_nil_of_length_pos h3]
      · have e3 : m.generics.constParams = [] := List.length_eq_zero.mp (by omega)
        simp [h1, h2, h3, e1, e2, e3]

/-- A rejected worklist entry contributes its diagnostic and nothing else. -/
theorem validateAndNormalize_cons_rejected (m : Signature) (rest : List Signature)
    (d : String) (h : rejectionDiag m = some d) :
    validateAndNormalize (m :: rest) =
      ((validateAndNormalize rest).fst, d :: (validateAndNormalize rest).snd) := by
  unfold rejectionDiag at h
  rw [validateAndNormalize_cons]
  by_cases h1 : (m.generics.typeParams).length > 0
  · simp only [h1, if_true, Option.some.injEq] at h
    simp [h1, h]
  · by_cases h2 : (m.generics.lifetimes).length > 0
    · simp only [h1, if_false, h2, if_true, Option.some.injEq] at h
      simp [h1, h2, h]
    · by_cases h3 : (m.generics.constParams).length > 0
      · simp only [h1, if_false, h2, if_false, h3, if_true, Option.some.injEq] at h
        simp [h1, h2, h3, h]
      · simp [h1, h2, h3] at h

/-- An accepted worklist entry contributes its normalized signature and no
diagnostic. -/
theorem validateAndNormalize_cons_accepted (m : Signature) (rest : List Signature)
    (h : rejectionDiag m = none) :
    validateAndNormalize (m :: rest) =
      (normalizeSignature m :: (validateAndNormalize rest).fst,
       (validateAndNormalize rest).snd) := by
  obtain ⟨h1, h2, h3⟩ := (rejectionDiag_eq_none_iff m).mp h
  rw [validateAndNormalize_cons]
  simp [h1, h2, h3]

/-- The emitted rejection diagnostic names the offending category. -/
theorem rejectionDiag_names_category (m : Signature) (d : String)
    (h : rejectionDiag m = some d) :
    (d = typeParamsDiag ∧ m.generics.typeParams ≠ []) ∨
    (d = lifetimesDiag ∧ m.generics.lifetimes ≠ []) ∨
    (d = constParamsDiag ∧ m.generics.constParams ≠ []) := by
  unfold rejectionDiag at h
  by_cases h1 : (m.generics.typeParams).length > 0
  · simp only [h1, if_true, Option.some.injEq] at h
    exact Or.inl ⟨h.symm, List.ne_nil_of_length_pos h1⟩
  · by_cases h2 : (m.generics.lifetimes).length > 0
    · simp only [h1, if_false, h2, if_true, Option.some.injEq] at h
      exact Or.inr (Or.inl ⟨h.symm, List.ne_nil_of_length_pos h2⟩)
    · by_cases h3 : (m.generics.constParams).length > 0
      · simp only [h1, if_false, h2, if_false, h3, if_true, Option.some.injEq] at h
        exact Or.inr (Or.inr ⟨h.symm, List.ne_nil_of_length_pos h3⟩)
      · simp [h1, h2, h3] at h

/-- C3: a worklisted signature declaring a type, lifetime or const generic
parameter is excluded from the final export list, one diagnostic naming the
offending category is emitted in its place, and the entries before and
after it are processed exactly as they would be on their own. -/
theorem C3_generic_rejection (pre post : List Signature) (m : Signature)
    (h : m.generics.typeParams ≠ [] ∨ m.generics.lifetimes ≠ [] ∨
         m.generics.constParams ≠ []) :
    ∃ d : String,
      (validateAndNormalize (pre ++ m :: post)).fst =
        (validateAndNormalize pre).fst ++ (validateAndNormalize post).fst ∧
      (validateAndNormalize (pre ++ m :: post)).snd =
        (validateAndNormalize pre).snd ++ d :: (validateAndNormalize post).snd ∧
      ((d = typeParamsDiag ∧ m.generics.typeParams ≠ []) ∨
       (d = lifetimesDiag ∧ m.generics.lifetimes ≠ []) ∨
       (d = constParamsDiag ∧ m.generics.constParams ≠ [])) := by
  have hd : rejectionDiag m ≠ none := by
    rw [Ne, rejectionDiag_eq_none_iff]
    tauto
  obtain ⟨d, hd⟩ := Option.ne_none_iff_exists.mp hd
  refine ⟨d, ?_, ?_, rejectionDiag_names_category m d hd.symm⟩
  · rw [validateAndNormalize_append, validateAndNormalize_cons_rejected m post d hd.symm]
  · rw [validateAndNormalize_append, validateAndNormalize_cons_rejected m post d hd.symm]

/-- C3, witness: the generic `fn b<T>(&self)` between two accepted entries
is dropped with one diagnostic while both neighbours are processed
normally. -/
theorem C3_generic_rejection_witness :
    ∃ d : String,
      (validateAndNormalize ([sigA] ++ sigB :: [sigC])).fst =
        (validateAndNormalize [sigA]).fst ++ (validateAndNormalize [sigC]).fst ∧
      (validateAndNormalize ([sigA] ++ sigB :: [sigC])).snd =
        (validateAndNormalize [sigA]).snd ++ d :: (validateAndNormalize [sigC]).snd ∧
      ((d = typeParamsDiag ∧ sigB.generics.typeParams ≠ []) ∨
       (d = lifetimesDiag ∧ sigB.generics.lifetimes ≠ []) ∨
       (d = constParamsDiag ∧ sigB.generics.constParams ≠ [])) :=
  C3_generic_rejection [sigA] [sigC] sigB (Or.inl (by decide))

/-! Decimal decoding, used to show the synthesized parameter names
`___unused_arg_{i}` are pairwise distinct for distinct indices. -/

/-- One step of reading a decimal numeral most-significant digit first. -/
def decDigit (v : Nat) (c : Char) : Nat := v * 10 + (c.toNat - 48)

/-- `Nat.digitChar` is inverted by `decDigit` on decimal digits. -/
theorem digitChar_decode : ∀ m : Nat, m < 10 → (Nat.digitChar m).toNat - 48 = m := by
  decide

/-- Unfolding equation of `Nat.toDigitsCore` on positive fuel. -/
theorem toDigitsCore_succ (b fuel n : Nat) (acc : List Char) :
    Nat.toDigitsCore b (fuel + 1) n acc =
      (if n / b = 0 then (n % b).digitChar :: acc
       else Nat.toDigitsCore b fuel (n / b) ((n % b).digitChar :: acc)) := rfl

/-- Folding `decDigit` over `Nat.toDigitsCore 10` recovers the encoded
number below the running value. -/
theorem toDigitsCore_decode (fuel : Nat) :
    ∀ (n : Nat) (acc : List Char) (v : Nat), n < fuel →
      ∃ k : Nat, List.foldl decDigit v (Nat.toDigitsCore 10 fuel n acc) =
        List.foldl decDigit (v * 10 ^ k + n) acc := by
  induction fuel with
  | zero => exact fun n acc v h => absurd h (Nat.not_lt_zero n)
  | succ fuel ih =>
    intro n acc v h
    have hmod : n % 10 < 10 := Nat.mod_lt n (by omega)
    have hdm : 10 * (n / 10) + n % 10 = n := Nat.div_add_mod n 10
    by_cases hdiv : n / 10 = 0
    · refine ⟨1, ?_⟩
      have hn : n % 10 = n := by omega
      rw [toDigitsCore_succ, if_pos hdiv, List.foldl_cons]
      have hn10 : n < 10 := by omega
      have : decDigit v (n % 10).digitChar = v * 10 ^ 1 + n := by
        simp [decDigit, hn, digitChar_decode n hn10]
      rw [this]
    · have hlt : n / 10 < fuel := by
        have : n / 10 < n := Nat.div_lt_self (by omega) (by omega)
        omega
      obtain ⟨k, hk⟩ := ih (n / 10) ((n % 10).digitChar :: acc) v hlt
      refine ⟨k + 1, ?_⟩
      rw [toDigitsCore_succ, if_neg hdiv, hk, List.foldl_cons]
      have : decDigit (v * 10 ^ k + n / 10) (n % 10).digitChar =
          v * 10 ^ (k + 1) + n := by
        simp only [decDigit, digitChar_decode _ hmod]
        calc (v * 10 ^ k + n / 10) * 10 + n % 10
            = v * (10 ^ k * 10) + (10 * (n / 10) + n % 10) := by ring
          _ = v * 10 ^ (k + 1) + n := by rw [hdm, pow_succ]
      rw [this]

/-- Folding `decDigit` over `Nat.toDigits 10 n` recovers `n`. -/
theorem toDigits_decode (n : Nat) :
    List.foldl decDigit 0 (Nat.toDigits 10 n) = n := by
  obtain ⟨k, hk⟩ := toDigitsCore_decode (n + 1) n [] 0 (Nat.lt_succ_self n)
  simpa [Nat.toDigits] using hk

/-- Decimal string representation is injective. -/
theorem nat_repr_injective : Function.Injective Nat.repr := by
  intro a b h
  have hdata : Nat.toDigits 10 a = Nat.toDigits 10 b := by
    have := congrArg String.data h
    simpa [Nat.repr, List.asString] using this
  have := congrArg (List.foldl decDigit 0) hdata
  rwa [toDigits_decode, toDigits_decode] at this

/-- The synthesized wildcard names are determined by, and determine, the
parameter index. -/
theorem unusedArgName_injective (j k : Nat)
    (h : ("___unused_arg_" ++ Nat.repr j) = ("___unused_arg_" ++ Nat.repr k)) :
    j = k := by
  have hd := congrArg String.data h
  rw [String.data_append, String.data_append] at hd
  exact nat_repr_injective (String.ext (List.append_cancel_left hd))

/-- Parameter rewriting acts index-wise on the input list. -/
theorem normalizeSignature_inputs_getElem? (m : Signature) (i : Nat) :
    (normalizeSignature m).inputs[i]? = Option.map (normalizeArg i) m.inputs[i]? := by
  simp only [normalizeSignature]
  rw [List.getElem?_map, List.getElem?_enum]
  cases m.inputs[i]? <;> rfl

/-- A signature whose first parameter is the user-chosen identifier
`___unused_arg_1` and whose second parameter is a wildcard. -/
def c4Sig : Signature :=
  ⟨"f", ⟨[]⟩, false,
   [FnArg.typed (Pat.ident false false "___unused_arg_1" none) "i32",
    FnArg.typed Pat.wild "i32"], ""⟩

/-- C4, counterexample: the claim promises the synthesized identifier never
collides with a user-chosen parameter name, but the source builds the name
from a fixed text plus the index without checking the other parameters:
in `c4Sig` the wildcard at index 1 is renamed to `___unused_arg_1`, exactly
the user-chosen name of parameter 0. -/
theorem C4_counterexample :
    c4Sig.inputs[0]? =
      some (FnArg.typed (Pat.ident false false "___unused_arg_1" none) "i32") ∧
    c4Sig.inputs[1]? = some (FnArg.typed Pat.wild "i32") ∧
    (normalizeSignature c4Sig).inputs[1]? =
      some (FnArg.typed (Pat.ident false false "___unused_arg_1" none) "i32") :=
  ⟨rfl, rfl, by decide⟩

/-- C4, amended: every wildcard parameter at index `i` is replaced by the
identifier `___unused_arg_` plus the decimal index, a fresh binding with no
reference, mutability or subpattern; these synthesized identifiers are
pairwise distinct across indices (but may collide with a user-chosen name
of that exact shape). -/
theorem C4_wildcard_renaming (m : Signature) (i : Nat) (ty : String)
    (h : m.inputs[i]? = some (FnArg.typed Pat.wild ty)) :
    (normalizeSignature m).inputs[i]? =
      some (FnArg.typed
        (Pat.ident false false ("___unused_arg_" ++ Nat.repr i) none) ty) ∧
    ∀ j k : Nat,
      ("___unused_arg_" ++ Nat.repr j) = ("___unused_arg_" ++ Nat.repr k) →
        j = k := by
  refine ⟨?_, unusedArgName_injective⟩
  rw [normalizeSignature_inputs_getElem?, h]
  rfl

/-- C4, witness: in `fn a(&self, _: i32)` the wildcard at index 1 becomes
`___unused_arg_1`. -/
theorem C4_wildcard_renaming_witness :
    (normalizeSignature sigA).inputs[1]? =
      some (FnArg.typed
        (Pat.ident false false ("___unused_arg_" ++ Nat.repr 1) none) "i32") ∧
    ∀ j k : Nat,
      ("___unused_arg_" ++ Nat.repr j) = ("___unused_arg_" ++ Nat.repr k) →
        j = k :=
  C4_wildcard_renaming sigA 1 "i32" (by decide)

/-- A method carrying the marker attribute twice. -/
def c5Method : ImplItemMethod := ⟨[exportAttr, exportAttr], "", sigC, "{}"⟩

/-- An impl block whose only method carries two marker attributes. -/
def c5Ast : ItemImpl := ⟨"", "Foo", [ImplItem.method c5Method]⟩

/-- C5, counterexample: the filter removes only the FIRST matching
attribute per method per pass, so on a method carrying the marker twice the
first pass leaves one marker in its output, and a second pass removes it,
changing the output: the filter is not idempotent as claimed. -/
theorem C5_counterexample :
    (impl_gdnative_expose c5Ast).fst.fst.items =
      [ImplItem.method ⟨[exportAttr], "", sigC, "{}"⟩] ∧
    (impl_gdnative_expose (impl_gdnative_expose c5Ast).fst.fst).fst.fst ≠
      (impl_gdnative_expose c5Ast).fst.fst :=
  ⟨by decide, by decide⟩

/-- Erasing the first match in a list with at most one match leaves no
match. -/
theorem countP_eraseIdx_zero {α : Type} (p : α → Bool) (l : List α) (idx : Nat)
    (hfind : l.findIdx? p = some idx) (hcnt : l.countP p ≤ 1) :
    (l.eraseIdx idx).countP p = 0 := by
  obtain ⟨hlt, hp, _⟩ := List.findIdx?_eq_some_iff_getElem.mp hfind
  have hsplit : l = l.take idx ++ l[idx] :: l.drop (idx + 1) := by
    rw [← List.drop_eq_getElem_cons hlt, List.take_append_drop]
  have htotal : l.countP p =
      (l.take idx).countP p + ((l.drop (idx + 1)).countP p + 1) := by
    conv_lhs => rw [hsplit]
    rw [List.countP_append, List.countP_cons, hp]
    simp
  rw [List.eraseIdx_eq_take_drop_succ, List.countP_append]
  omega

/-- After one pass over a method with at most one marker, no marker
remains. -/
theorem processMethod_marker_free (m : ImplItemMethod)
    (h : m.attrs.countP isExportAttr ≤ 1) :
    ∀ attr ∈ (processMethod m).fst.attrs, isExportAttr attr = false := by
  intro attr ha
  rcases hfind : m.attrs.findIdx? isExportAttr with _ | idx
  · simp only [processMethod, hfind] at ha
    exact List.findIdx?_eq_none_iff.mp hfind attr ha
  · simp only [processMethod, hfind] at ha
    exact Bool.eq_false_iff.mpr
      (List.countP_eq_zero.mp (countP_eraseIdx_zero isExportAttr m.attrs idx hfind h)
        attr ha)

/-- A method none of whose attributes match is left untouched. -/
theorem processMethod_of_marker_free (m : ImplItemMethod)
    (h : ∀ attr ∈ m.attrs, isExportAttr attr = false) :
    processMethod m = (m, none) :=
  processMethod_none m (List.findIdx?_eq_none_iff.mpr h)

/-- C5, amended: provided every method of the input carries the marker
attribute at most once — which one application of the filter guarantees for
its own output — running the attribute filter on its own output changes
nothing, and no member of that output carries any marker attribute. -/
theorem C5_idempotence (ast : ItemImpl)
    (h : ∀ m : ImplItemMethod, ImplItem.method m ∈ ast.items →
          m.attrs.countP isExportAttr ≤ 1) :
    (impl_gdnative_expose (impl_gdnative_expose ast).fst.fst).fst.fst =
      (impl_gdnative_expose ast).fst.fst ∧
    ∀ m : ImplItemMethod,
      ImplItem.method m ∈ (impl_gdnative_expose ast).fst.fst.items →
        ∀ attr ∈ m.attrs, isExportAttr attr = false := by
  have hout : ∀ m : ImplItemMethod,
      ImplItem.method m ∈ (impl_gdnative_expose ast).fst.fst.items →
        ∀ attr ∈ m.attrs, isExportAttr attr = false := by
    intro m hm
    rw [impl_gdnative_expose_eq] at hm
    simp only [collectItems_fst] at hm
    obtain ⟨item, hitem, heq⟩ := List.mem_map.mp hm
    cases item with
    | method m0 =>
      simp only [filterItem, ImplItem.method.injEq] at heq
      subst heq
      exact processMethod_marker_free m0 (h m0 hitem)
    | other t => simp [filterItem] at heq
  refine ⟨?_, hout⟩
  rw [impl_gdnative_expose_eq (impl_gdnative_expose ast).fst.fst]
  have hfix : ((collectItems (impl_gdnative_expose ast).fst.fst.items)).fst =
      (impl_gdnative_expose ast).fst.fst.items := by
    rw [collectItems_fst]
    have : ∀ item ∈ (impl_gdnative_expose ast).fst.fst.items,
        filterItem item = id item := by
      intro item hitem
      cases item with
      | method m =>
        simp only [filterItem, id_eq, ImplItem.method.injEq]
        rw [processMethod_of_marker_free m (hout m hitem)]
      | other t => rfl
    rw [List.map_congr_left this, List.map_id]
  rcases hast : impl_gdnative_expose ast with ⟨⟨res, exp⟩, diags⟩
  rw [hast] at hfix
  cases res
  simp only at hfix ⊢
  rw [hfix]

/-- C5, witness: the example impl block carries each marker at most once,
so a second filter pass changes nothing and its output is marker-free. -/
theorem C5_idempotence_witness :
    (impl_gdnative_expose (impl_gdnative_expose astEx).fst.fst).fst.fst =
      (impl_gdnative_expose astEx).fst.fst ∧
    ∀ m : ImplItemMethod,
      ImplItem.method m ∈ (impl_gdnative_expose astEx).fst.fst.items →
        ∀ attr ∈ m.attrs, isExportAttr attr = false :=
  C5_idempotence astEx (by
    intro m hm
    simp only [astEx, List.mem_cons, List.not_mem_nil, or_false,
      ImplItem.method.injEq, reduceCtorEq, false_or] at hm
    rcases hm with rfl | rfl | rfl <;> decide)

/-- The accepted export list is the worklist filtered by acceptance, each
entry normalized, in worklist order. -/
theorem validateAndNormalize_fst_filter (w : List Signature) :
    (validateAndNormalize w).fst =
      (w.filter fun m => (rejectionDiag m).isNone).map normalizeSignature := by
  induction w with
  | nil => rfl
  | cons m rest ih =>
    rcases hd : rejectionDiag m with _ | d
    · rw [validateAndNormalize_cons_accepted m rest hd, List.filter_cons]
      simp [hd, ih]
    · rw [validateAndNormalize_cons_rejected m rest d hd, List.filter_cons]
      simp [hd, ih]

/-- C6: the emitter produces exactly one registration artifact, owned by
the impl block's self type; its registration-call keys are exactly the
idents of the accepted worklist entries in declaration order (the worklist
filtered by acceptance); and — when the marked methods have pairwise
distinct names, as any compilable impl block guarantees — each accepted
function's name occurs exactly once among the keys. -/
theorem C6_registration_calls (ast : ItemImpl)
    (h : (((collectItems ast.items).snd).map Signature.ident).Nodup) :
    (derive_methods ast).fst.class_name = ast.self_ty ∧
    (derive_methods ast).fst.registrations.map RegistrationCall.name =
      (((collectItems ast.items).snd).filter
        (fun m => (rejectionDiag m).isNone)).map Signature.ident ∧
    ∀ m ∈ ((collectItems ast.items).snd).filter
        (fun m => (rejectionDiag m).isNone),
      ((derive_methods ast).fst.registrations.map RegistrationCall.name).count
        m.ident = 1 := by
  have hreg : (derive_methods ast).fst.registrations.map RegistrationCall.name =
      (((collectItems ast.items).snd).filter
        (fun m => (rejectionDiag m).isNone)).map Signature.ident := by
    show ((validateAndNormalize (collectItems ast.items).snd).fst.map
        (fun m => RegistrationCall.mk m.ident m)).map RegistrationCall.name = _
    rw [validateAndNormalize_fst_filter, List.map_map, List.map_map]
    rfl
  refine ⟨rfl, hreg, ?_⟩
  intro m hm
  rw [hreg]
  have hsub : List.Sublist
      ((((collectItems ast.items).snd).filter
        (fun m => (rejectionDiag m).isNone)).map Signature.ident)
      (((collectItems ast.items).snd).map Signature.ident) :=
    (List.filter_sublist _).map Signature.ident
  exact List.count_eq_one_of_mem (hsub.nodup h)
    (List.mem_map_of_mem Signature.ident hm)

/-- C6, witness: on the example impl block the marked methods are `a` and
the generic `b`; only `"a"` is registered, exactly once. -/
theorem C6_registration_calls_witness :
    (derive_methods astEx).fst.class_name = astEx.self_ty ∧
    (derive_methods astEx).fst.registrations.map RegistrationCall.name =
      (((collectItems astEx.items).snd).filter
        (fun m => (rejectionDiag m).isNone)).map Signature.ident ∧
    ∀ m ∈ ((collectItems astEx.items).snd).filter
        (fun m => (rejectionDiag m).isNone),
      ((derive_methods astEx).fst.registrations.map RegistrationCall.name).count
        m.ident = 1 :=
  C6_registration_calls astEx (by decide)

/-- C7: a parameter bound as a (possibly by-reference) mutable identifier
pattern is rebound to the same identifier with the mutability marker
removed and everything else (type, subpattern, by-reference marker)
unchanged. -/
theorem C7_mutability_stripped (m : Signature) (i : Nat) (by_ref : Bool)
    (name : String) (subpat : Option String) (ty : String)
    (h : m.inputs[i]? = some (FnArg.typed (Pat.ident by_ref true name subpat) ty)) :
    (normalizeSignature m).inputs[i]? =
      some (FnArg.typed (Pat.ident by_ref false name subpat) ty) := by
  rw [normalizeSignature_inputs_getElem?, h]
  rfl

/-- C7, witness: in `fn c(&self, mut y: i32)` the parameter `mut y` comes
out as plain `y`. -/
theorem C7_mutability_stripped_witness :
    (normalizeSignature sigC).inputs[1]? =
      some (FnArg.typed (Pat.ident false false "y" none) "i32") :=
  C7_mutability_stripped sigC 1 false "y" none "i32" (by decide)

/-- C8: normalization clears the unsafety qualifier, so every signature in
the final export list has it cleared, whatever the input qualifiers were. -/
theorem C8_unsafety_cleared (w : List Signature) (m : Signature) :
    (normalizeSignature m).unsafety = false ∧
    ((validateAndNormalize w).fst).all (fun s => !s.unsafety) = true := by
  refine ⟨rfl, ?_⟩
  rw [validateAndNormalize_fst_filter]
  simp only [List.all_eq_true]
  intro s hs
  obtain ⟨m0, _, rfl⟩ := List.mem_map.mp hs
  rfl

/-- C9: a failed parse of the raw input aborts the pipeline with the
underlying diagnostic and no partial output, and on every well-formed
input the remaining stages are total: the pipeline returns the rebuilt
impl block, the export descriptor and the diagnostics. -/
theorem C9_parse_failure_propagation (e : String) (ast : ItemImpl) :
    parse_method_export (Except.error e) = Except.error e ∧
    parse_method_export (Except.ok ast) = Except.ok (impl_gdnative_expose ast) :=
  ⟨rfl, rfl⟩

/-- C10: receiver parameters fall into the catch-all arm of the parameter
rewrite, so `self`, `&self`, `&mut self` and `mut self` — the last keeping
its mutability marker — are exactly preserved at their position. -/
theorem C10_receiver_untouched (m : Signature) (i : Nat) (r : Receiver)
    (h : m.inputs[i]? = some (FnArg.receiver r)) :
    (normalizeSignature m).inputs[i]? = some (FnArg.receiver r) ∧
    ∀ j : Nat, normalizeArg j (FnArg.receiver r) = FnArg.receiver r := by
  refine ⟨?_, fun j => rfl⟩
  rw [normalizeSignature_inputs_getElem?, h]
  rfl

/-- `fn d(mut self)`. -/
def mutSelfSig : Signature :=
  ⟨"d", ⟨[]⟩, false, [FnArg.receiver ⟨false, none, true⟩], ""⟩

/-- C10, witness: the `mut self` receiver of `fn d(mut self)` survives
normalization with its mutability marker intact. -/
theorem C10_receiver_untouched_witness :
    (normalizeSignature mutSelfSig).inputs[0]? =
      some (FnArg.receiver ⟨false, none, true⟩) ∧
    ∀ j : Nat,
      normalizeArg j (FnArg.receiver ⟨false, none, true⟩) =
        FnArg.receiver ⟨false, none, true⟩ :=
  C10_receiver_untouched mutSelfSig 0 ⟨false, none, true⟩ (by decide)

end GdnativeDerive
